import Mathlib

/-!
Verification of the QuORAL APODAS photon-arrival stream decoder and trace
aggregator.  The decoder (`src/photonarrival_1.py`, class
`Photon_Arrival_Timings`) is embedded as pure functions over an explicit
decoder state; file output is modelled as append-only record lists.  The
aggregator binning (`src/analyze_1.py` / `src/analyze_2.py`, numpy
`arange`/`histogram`) is embedded over `ℚ` (exact arithmetic idealization of
the float pipeline).
-/

namespace PhotonArrival

/-- Persistent decoder state of `Photon_Arrival_Timings.__init__`:
detection counters, wraparound counter, first-wraparound flag and the
last UDP packet counter (persists across files). -/
structure DecoderState where
  apd_a_detection : Nat
  apd_b_detection : Nat
  coincidence_detection : Nat
  number_of_wrap_around : Int
  first_wrap_around : Bool
  last_udp_packet_counter : Option Int
  deriving DecidableEq

/-- `self.clock_period_ns = 5`. -/
def clock_period_ns : Int := 5

/-- `self.time_for_one_wrap_around = 160`. -/
def time_for_one_wrap_around : Int := 160

/-- Output channel of a detection record (which `.dat` file the line is
written to). -/
inductive Chan
  | A
  | B
  | C
  deriving DecidableEq

/-- One line written to a detection output file:
`packet_counter \t running_count \t timestamp_ns`. -/
structure Rec where
  chan : Chan
  packet : Nat
  cnt : Nat
  ts : Int
  deriving DecidableEq

/-- Lines 89-91 of `detection_and_timing_of_pulses`: the very first 159
sample sets the flag and resets `number_of_wrap_around` to `-1`. -/
def checkFirstWrap (dec : DecoderState) (v : Nat) : DecoderState :=
  if v = 159 ∧ dec.first_wrap_around = false then
    { dec with first_wrap_around := true, number_of_wrap_around := -1 }
  else dec

/-- Body of the per-byte loop of `detection_and_timing_of_pulses`
(lines 89-131): classify one payload byte, mutate the state, and return
the records written for this byte in file-write order. -/
def processByte (dec : DecoderState) (pc : Nat) (v : Nat) :
    DecoderState × List Rec :=
  let dec := checkFirstWrap dec v
  if dec.first_wrap_around = true then
    if v < 128 then
      if 32 ≤ v ∧ v ≤ 63 then
        let a := dec.apd_a_detection + 1
        let ts := ((v : Int) - 32) * clock_period_ns +
          dec.number_of_wrap_around * time_for_one_wrap_around
        ({ dec with apd_a_detection := a }, [⟨Chan.A, pc, a, ts⟩])
      else if 64 ≤ v ∧ v ≤ 95 then
        let b := dec.apd_b_detection + 1
        let ts := ((v : Int) - 64) * clock_period_ns +
          dec.number_of_wrap_around * time_for_one_wrap_around
        ({ dec with apd_b_detection := b }, [⟨Chan.B, pc, b, ts⟩])
      else if 96 ≤ v ∧ v ≤ 127 then
        let c := dec.coincidence_detection + 1
        let a := dec.apd_a_detection + 1
        let b := dec.apd_b_detection + 1
        let ts := ((v : Int) - 96) * clock_period_ns +
          dec.number_of_wrap_around * time_for_one_wrap_around
        ({ dec with coincidence_detection := c, apd_a_detection := a, apd_b_detection := b },
          [⟨Chan.C, pc, c, ts⟩, ⟨Chan.A, pc, a, ts⟩, ⟨Chan.B, pc, b, ts⟩])
      else (dec, [])
    else
      if v = 159 then
        ({ dec with number_of_wrap_around := dec.number_of_wrap_around + 1 }, [])
      else if 160 ≤ v ∧ v ≤ 191 then
        let a := dec.apd_a_detection + 1
        let ts := ((v : Int) - 160) * clock_period_ns +
          dec.number_of_wrap_around * time_for_one_wrap_around
        ({ dec with apd_a_detection := a, number_of_wrap_around := dec.number_of_wrap_around + 1 },
          [⟨Chan.A, pc, a, ts⟩])
      else if 192 ≤ v ∧ v ≤ 223 then
        let b := dec.apd_b_detection + 1
        let ts := ((v : Int) - 192) * clock_period_ns +
          dec.number_of_wrap_around * time_for_one_wrap_around
        ({ dec with apd_b_detection := b, number_of_wrap_around := dec.number_of_wrap_around + 1 },
          [⟨Chan.B, pc, b, ts⟩])
      else if 224 ≤ v ∧ v ≤ 255 then
        let c := dec.coincidence_detection + 1
        let a := dec.apd_a_detection + 1
        let b := dec.apd_b_detection + 1
        let ts := ((v : Int) - 224) * clock_period_ns +
          dec.number_of_wrap_around * time_for_one_wrap_around
        ({ dec with coincidence_detection := c, apd_a_detection := a, apd_b_detection := b, number_of_wrap_around := dec.number_of_wrap_around + 1 },
          [⟨Chan.C, pc, c, ts⟩, ⟨Chan.A, pc, a, ts⟩, ⟨Chan.B, pc, b, ts⟩])
      else (dec, [])
  else (dec, [])

/-- `detection_and_timing_of_pulses(self, sub_data_array, packet_counter)`:
iterate the per-byte classifier over exactly the bytes of the payload
(`for i in range(actual_length)`), collecting the written records in
order. -/
def detection_and_timing_of_pulses (dec : DecoderState) (payload : List Nat)
    (pc : Nat) : DecoderState × List Rec :=
  match payload with
  | [] => (dec, [])
  | v :: rest =>
    let r1 := processByte dec pc v
    let r2 := detection_and_timing_of_pulses r1.1 rest pc
    (r2.1, r1.2 ++ r2.2)

/-- One line written to the `Packet_counter` output file:
`packet_counter \t udp_packet_counter \t difference` (line 59). -/
structure PktRecord where
  packet : Nat
  seq : Nat
  delta : Int
  deriving DecidableEq

/-- The state threaded through the packet loop of `retrieve_from_log_file`:
the decoder state plus the file-local `packet_counter`, `difference`,
`total_missed_packets`, and the contents written so far to the detection
and packet-counter output files. -/
structure LoopState where
  dec : DecoderState
  packet_counter : Nat
  difference : Option Int
  total_missed : Int
  recs : List Rec
  pktRecs : List PktRecord
  deriving DecidableEq

/-- The three trailing summary lines written after the loop
(lines 77-79): total missed packets, total observation time, and
observation time minus missed-packet time. -/
structure Summary where
  missed : Int
  total_time : Int
  adjusted_time : Int
  deriving DecidableEq

/-- End of the loop: the output files keep everything written so far and
the packet-counter file gets the three summary lines (lines 77-79). -/
def finalize (ls : LoopState) : LoopState × Summary :=
  (ls, ⟨ls.total_missed, ls.dec.number_of_wrap_around * time_for_one_wrap_around,
    (ls.dec.number_of_wrap_around - ls.total_missed * 1024) * time_for_one_wrap_around⟩)

/-- The 90 header bytes read at stream position `pos` (lines 45-49). -/
def headerAt (bytes : List Nat) (pos : Nat) : List Nat :=
  (bytes.drop pos).take 90

/-- `packet_length = packet_header[32] * 256 + packet_header[33]` (line 50). -/
def packetLengthAt (bytes : List Nat) (pos : Nat) : Nat :=
  (headerAt bytes pos).getD 32 0 * 256 + (headerAt bytes pos).getD 33 0

/-- Big-endian 32-bit `udp_packet_counter` from header bytes 86-89 (line 52). -/
def udpCounterAt (bytes : List Nat) (pos : Nat) : Nat :=
  (headerAt bytes pos).getD 86 0 * 16777216 + (headerAt bytes pos).getD 87 0 * 65536 +
    (headerAt bytes pos).getD 88 0 * 256 + (headerAt bytes pos).getD 89 0

/-- Lines 52-60: sequence-counter accounting for one valid packet.
When a previous counter exists, `difference = current - previous`; a gap
(`difference != 1`) adds `(difference-1)*1024` to the wraparound counter
and `difference-1` to the file's missed-packet total.  A packet-counter
line is written (with `difference if difference is not None else 1`),
and the last seen counter is updated. -/
def accountPacket (ls : LoopState) (udp : Nat) : LoopState :=
  let step : DecoderState × Option Int × Int :=
    match ls.dec.last_udp_packet_counter with
    | some prev =>
      let d : Int := (udp : Int) - prev
      if d = 1 then (ls.dec, some d, ls.total_missed)
      else ({ ls.dec with number_of_wrap_around := ls.dec.number_of_wrap_around + (d - 1) * 1024 }, some d, ls.total_missed + (d - 1))
    | none => (ls.dec, ls.difference, ls.total_missed)
  { ls with dec := { step.1 with last_udp_packet_counter := some (udp : Int) }, difference := step.2.1, total_missed := step.2.2, pktRecs := ls.pktRecs ++ [⟨ls.packet_counter, udp, (step.2.1).getD 1⟩] }

/-- Lines 52-64: the whole valid-packet branch — sequence accounting,
payload read of up to 1024 bytes, sample classification, and the
increment of the file-local packet counter. -/
def stepValidPacket (bytes : List Nat) (pos : Nat) (ls : LoopState) : LoopState :=
  let acc := accountPacket ls (udpCounterAt bytes pos)
  let payload := (bytes.drop (pos + 90)).take 1024
  let r := detection_and_timing_of_pulses acc.dec payload acc.packet_counter
  { acc with dec := r.1, recs := acc.recs ++ r.2, packet_counter := acc.packet_counter + 1 }

/-- Lines 67-75: the resynchronization scan.  Read 4 bytes at a time; an
empty read means EOF (`none`); the chunk `[69, 88, 80, 46]` ("EXP.") means
the marker was found, and the file position is rewound 76 bytes from the
current read position (`fp_file.seek(-76, 1)`).  The fuel argument only
bounds the number of iterations; `scanResync` supplies enough for the
whole stream. -/
def scanAux (bytes : List Nat) : Nat → Nat → Option Nat
  | 0, _ => none
  | fuel + 1, pos =>
    let chunk := (bytes.drop pos).take 4
    if chunk = [] then none
    else if chunk = [69, 88, 80, 46] then some (pos + 4 - 76)
    else scanAux bytes fuel (pos + chunk.length)

/-- The resynchronization scan starting at `pos`, with enough fuel to
reach the end of the stream. -/
def scanResync (bytes : List Nat) (pos : Nat) : Option Nat :=
  scanAux bytes (bytes.length + 1) pos

/-- The packet loop of `retrieve_from_log_file` (lines 44-76) over the
byte stream: read a 90-byte header (fewer than 90 bytes remaining is the
`StopIteration` EOF path), dispatch on the declared packet length, and
either process a valid packet and continue, resynchronize, or stop.  The
fuel argument only bounds the number of loop iterations;
`retrieve_from_log_file` supplies enough for the whole stream. -/
def packetLoop (bytes : List Nat) : Nat → Nat → LoopState → LoopState × Summary
  | 0, _, ls => finalize ls
  | fuel + 1, pos, ls =>
    if bytes.length < pos + 90 then finalize ls
    else if packetLengthAt bytes pos = 1052 then
      packetLoop bytes fuel (pos + 90 + ((bytes.drop (pos + 90)).take 1024).length) (stepValidPacket bytes pos ls)
    else
      match scanResync bytes (pos + 90) with
      | some p => packetLoop bytes fuel p ls
      | none => finalize ls

/-- Fresh per-file loop state around a persistent decoder state:
`packet_counter = 1`, `difference = None`, `total_missed_packets = 0`,
empty output files. -/
def initLoopState (dec : DecoderState) : LoopState :=
  ⟨dec, 1, none, 0, [], []⟩

/-- `retrieve_from_log_file`: skip the 24-byte file header
(`fp_file.seek(24, 0)`) and run the packet loop. -/
def retrieve_from_log_file (bytes : List Nat) (dec : DecoderState) :
    LoopState × Summary :=
  packetLoop bytes (bytes.length + 1) 24 (initLoopState dec)

/-- Well-ordered payloads (used to state the amended monotonicity
property): successive event samples carry non-decreasing offsets within
their classification ranges, with the offset floor resetting to 0
whenever the wraparound counter advances (a 159 marker or an
overflow-form event). -/
def wellOrdered : Nat → List Nat → Bool
  | _, [] => true
  | lastOff, v :: rest =>
    if 32 ≤ v ∧ v ≤ 63 then decide (lastOff ≤ v - 32) && wellOrdered (v - 32) rest
    else if 64 ≤ v ∧ v ≤ 95 then decide (lastOff ≤ v - 64) && wellOrdered (v - 64) rest
    else if 96 ≤ v ∧ v ≤ 127 then decide (lastOff ≤ v - 96) && wellOrdered (v - 96) rest
    else if v = 159 then wellOrdered 0 rest
    else if 160 ≤ v ∧ v ≤ 191 then decide (lastOff ≤ v - 160) && wellOrdered 0 rest
    else if 192 ≤ v ∧ v ≤ 223 then decide (lastOff ≤ v - 192) && wellOrdered 0 rest
    else if 224 ≤ v ∧ v ≤ 255 then decide (lastOff ≤ v - 224) && wellOrdered 0 rest
    else wellOrdered lastOff rest

/-- The per-payload timestamp trace: timestamps of the records emitted
while classifying the payload's bytes, in emission order. -/
def tsTrace (dec : DecoderState) (payload : List Nat) (pc : Nat) : List Int :=
  (detection_and_timing_of_pulses dec payload pc).2.map (fun r => r.ts)

end PhotonArrival

namespace Analyze

/-- `np.arange(start, stop, step)` over exact rationals: the values
`start + i*step` for `0 ≤ i < ⌈(stop - start)/step⌉`. -/
def npArange (start stop step : ℚ) : List ℚ :=
  (List.range (⌈(stop - start) / step⌉.toNat)).map (fun i : Nat => start + (i : ℚ) * step)

/-- `np.histogram(data, bins=edges)` counts: bin `i` covers
`[edge_i, edge_{i+1})`, except the last bin, which is closed
`[edge_{n-2}, edge_{n-1}]` (numpy's documented semantics). -/
def histogramCounts (data : List ℚ) (edges : List ℚ) : List Nat :=
  (List.range (edges.length - 1)).map (fun i =>
    if i + 2 = edges.length then
      data.countP (fun x => decide (edges.getD i 0 ≤ x ∧ x ≤ edges.getD (i + 1) 0))
    else
      data.countP (fun x => decide (edges.getD i 0 ≤ x ∧ x < edges.getD (i + 1) 0)))

/-- `(bin_edges[:-1] + bin_edges[1:]) / 2`: midpoints of consecutive
edges. -/
def binCenters (edges : List ℚ) : List ℚ :=
  List.zipWith (fun a b => (a + b) / 2) edges edges.tail

/-- `counts / bin_width` in rate mode, raw counts otherwise. -/
def binValues (counts : List Nat) (bin_width : ℚ) (show_rate : Bool) : List ℚ :=
  if show_rate then counts.map (fun c : Nat => (c : ℚ) / bin_width)
  else counts.map (fun c : Nat => (c : ℚ))

/-- Minimum of a nonempty list (`all_ts.min()`); 0 on the empty list. -/
def listMin : List ℚ → ℚ
  | [] => 0
  | x :: xs => xs.foldl min x

/-- Maximum of a nonempty list (`all_ts.max()`); 0 on the empty list. -/
def listMax : List ℚ → ℚ
  | [] => 0
  | x :: xs => xs.foldl max x

/-- The aggregator's failure modes.  `emptyInputError` models the
`ValueError("No timestamps found! ...")` raised when no timestamps exist
across all inputs — the spec's designated `EmptyInputError`. -/
inductive AggError
  | emptyInputError
  deriving DecidableEq

/-- The aggregator's output: bin centers (seconds) and per-bin values
(counts or Hz). -/
structure TraceResult where
  centers : List ℚ
  values : List ℚ
  deriving DecidableEq

/-- The `__main__` aggregation of `analyze_1.py` (lines 60-91): keep the
nonempty per-file timestamp lists, fail with the empty-input error if none
remain, else concatenate, convert ns to seconds, sort ascending, bin with
`np.arange`/`np.histogram`, and report bin centers with counts or rates. -/
def aggregate (streams : List (List ℚ)) (bin_width : ℚ) (show_rate : Bool) :
    Except AggError TraceResult :=
  let all_ts_ns := streams.filter (fun l => !l.isEmpty)
  if all_ts_ns.isEmpty then Except.error AggError.emptyInputError
  else
    let all_ts := (all_ts_ns.flatten.map (fun t => t / 1000000000)).insertionSort (· ≤ ·)
    let bins := npArange (listMin all_ts) (listMax all_ts + bin_width) bin_width
    let counts := histogramCounts all_ts bins
    Except.ok ⟨binCenters bins, binValues counts bin_width show_rate⟩

end Analyze

namespace PhotonArrival

/-- The per-byte classifier never touches the state (and emits nothing)
when a non-159 byte is seen while the first-wraparound flag is unset
(lines 89-92: neither the flag branch nor the classification body runs). -/
theorem processByte_preflag (dec : DecoderState) (pc v : Nat)
    (hf : dec.first_wrap_around = false) (hv : v ≠ 159) :
    processByte dec pc v = (dec, []) := by
  have hcf : checkFirstWrap dec v = dec := by
    unfold checkFirstWrap
    rw [if_neg]
    simp [hv]
  unfold processByte
  rw [hcf, if_neg]
  simp [hf]

/-- When the flag is already set, line 89's condition is false and the
first-wraparound branch is a no-op. -/
theorem checkFirstWrap_flagSet (dec : DecoderState) (v : Nat)
    (hf : dec.first_wrap_around = true) : checkFirstWrap dec v = dec := by
  unfold checkFirstWrap
  rw [if_neg]
  simp [hf]

/-- Classification of a 32..63 byte with the flag set. -/
theorem processByte_A (dec : DecoderState) (pc v : Nat)
    (hf : dec.first_wrap_around = true) (h1 : 32 ≤ v) (h2 : v ≤ 63) :
    processByte dec pc v =
      ({ dec with apd_a_detection := dec.apd_a_detection + 1 },
        [⟨Chan.A, pc, dec.apd_a_detection + 1,
          ((v : Int) - 32) * 5 + dec.number_of_wrap_around * 160⟩]) := by
  unfold processByte
  rw [checkFirstWrap_flagSet dec v hf, if_pos hf,
    if_pos (show v < 128 by omega), if_pos ⟨h1, h2⟩]
  rfl

/-- Classification of a 64..95 byte with the flag set. -/
theorem processByte_B (dec : DecoderState) (pc v : Nat)
    (hf : dec.first_wrap_around = true) (h1 : 64 ≤ v) (h2 : v ≤ 95) :
    processByte dec pc v =
      ({ dec with apd_b_detection := dec.apd_b_detection + 1 },
        [⟨Chan.B, pc, dec.apd_b_detection + 1,
          ((v : Int) - 64) * 5 + dec.number_of_wrap_around * 160⟩]) := by
  unfold processByte
  rw [checkFirstWrap_flagSet dec v hf, if_pos hf,
    if_pos (show v < 128 by omega),
    if_neg (show ¬(32 ≤ v ∧ v ≤ 63) by omega), if_pos ⟨h1, h2⟩]
  rfl

/-- Classification of a 96..127 byte with the flag set. -/
theorem processByte_C (dec : DecoderState) (pc v : Nat)
    (hf : dec.first_wrap_around = true) (h1 : 96 ≤ v) (h2 : v ≤ 127) :
    processByte dec pc v =
      ({ dec with coincidence_detection := dec.coincidence_detection + 1, apd_a_detection := dec.apd_a_detection + 1, apd_b_detection := dec.apd_b_detection + 1 },
        [⟨Chan.C, pc, dec.coincidence_detection + 1,
          ((v : Int) - 96) * 5 + dec.number_of_wrap_around * 160⟩,
         ⟨Chan.A, pc, dec.apd_a_detection + 1,
          ((v : Int) - 96) * 5 + dec.number_of_wrap_around * 160⟩,
         ⟨Chan.B, pc, dec.apd_b_detection + 1,
          ((v : Int) - 96) * 5 + dec.number_of_wrap_around * 160⟩]) := by
  unfold processByte
  rw [checkFirstWrap_flagSet dec v hf, if_pos hf,
    if_pos (show v < 128 by omega),
    if_neg (show ¬(32 ≤ v ∧ v ≤ 63) by omega),
    if_neg (show ¬(64 ≤ v ∧ v ≤ 95) by omega), if_pos ⟨h1, h2⟩]
  rfl

/-- Classification of a 159 byte with the flag already set. -/
theorem processByte_wrapMarker (dec : DecoderState) (pc : Nat)
    (hf : dec.first_wrap_around = true) :
    processByte dec pc 159 =
      ({ dec with number_of_wrap_around := dec.number_of_wrap_around + 1 }, []) := by
  unfold processByte
  rw [checkFirstWrap_flagSet dec 159 hf, if_pos hf,
    if_neg (show ¬(159 : Nat) < 128 by omega), if_pos rfl]

/-- Classification of a 160..191 byte with the flag set. -/
theorem processByte_Aov (dec : DecoderState) (pc v : Nat)
    (hf : dec.first_wrap_around = true) (h1 : 160 ≤ v) (h2 : v ≤ 191) :
    processByte dec pc v =
      ({ dec with apd_a_detection := dec.apd_a_detection + 1, number_of_wrap_around := dec.number_of_wrap_around + 1 },
        [⟨Chan.A, pc, dec.apd_a_detection + 1,
          ((v : Int) - 160) * 5 + dec.number_of_wrap_around * 160⟩]) := by
  unfold processByte
  rw [checkFirstWrap_flagSet dec v hf, if_pos hf,
    if_neg (show ¬v < 128 by omega), if_neg (show ¬v = 159 by omega),
    if_pos ⟨h1, h2⟩]
  rfl

/-- Classification of a 192..223 byte with the flag set. -/
theorem processByte_Bov (dec : DecoderState) (pc v : Nat)
    (hf : dec.first_wrap_around = true) (h1 : 192 ≤ v) (h2 : v ≤ 223) :
    processByte dec pc v =
      ({ dec with apd_b_detection := dec.apd_b_detection + 1, number_of_wrap_around := dec.number_of_wrap_around + 1 },
        [⟨Chan.B, pc, dec.apd_b_detection + 1,
          ((v : Int) - 192) * 5 + dec.number_of_wrap_around * 160⟩]) := by
  unfold processByte
  rw [checkFirstWrap_flagSet dec v hf, if_pos hf,
    if_neg (show ¬v < 128 by omega), if_neg (show ¬v = 159 by omega),
    if_neg (show ¬(160 ≤ v ∧ v ≤ 191) by omega), if_pos ⟨h1, h2⟩]
  rfl

/-- Classification of a 224..255 byte with the flag set. -/
theorem processByte_Cov (dec : DecoderState) (pc v : Nat)
    (hf : dec.first_wrap_around = true) (h1 : 224 ≤ v) (h2 : v ≤ 255) :
    processByte dec pc v =
      ({ dec with coincidence_detection := dec.coincidence_detection + 1, apd_a_detection := dec.apd_a_detection + 1, apd_b_detection := dec.apd_b_detection + 1, number_of_wrap_around := dec.number_of_wrap_around + 1 },
        [⟨Chan.C, pc, dec.coincidence_detection + 1,
          ((v : Int) - 224) * 5 + dec.number_of_wrap_around * 160⟩,
         ⟨Chan.A, pc, dec.apd_a_detection + 1,
          ((v : Int) - 224) * 5 + dec.number_of_wrap_around * 160⟩,
         ⟨Chan.B, pc, dec.apd_b_detection + 1,
          ((v : Int) - 224) * 5 + dec.number_of_wrap_around * 160⟩]) := by
  unfold processByte
  rw [checkFirstWrap_flagSet dec v hf, if_pos hf,
    if_neg (show ¬v < 128 by omega), if_neg (show ¬v = 159 by omega),
    if_neg (show ¬(160 ≤ v ∧ v ≤ 191) by omega),
    if_neg (show ¬(192 ≤ v ∧ v ≤ 223) by omega), if_pos ⟨h1, h2⟩]
  rfl

/-- A byte outside every classification range is ignored when the flag is
set. -/
theorem processByte_idle (dec : DecoderState) (pc v : Nat)
    (hf : dec.first_wrap_around = true)
    (hA : ¬(32 ≤ v ∧ v ≤ 63)) (hB : ¬(64 ≤ v ∧ v ≤ 95))
    (hC : ¬(96 ≤ v ∧ v ≤ 127)) (h159 : v ≠ 159)
    (hAo : ¬(160 ≤ v ∧ v ≤ 191)) (hBo : ¬(192 ≤ v ∧ v ≤ 223))
    (hCo : ¬(224 ≤ v ∧ v ≤ 255)) :
    processByte dec pc v = (dec, []) := by
  unfold processByte
  rw [checkFirstWrap_flagSet dec v hf, if_pos hf]
  by_cases hlt : v < 128
  · rw [if_pos hlt, if_neg hA, if_neg hB, if_neg hC]
  · rw [if_neg hlt, if_neg h159, if_neg hAo, if_neg hBo, if_neg hCo]

/-- Unfolding the classifier over a cons cell: the records of the head
byte followed by the records of the rest from the updated state. -/
theorem tsTrace_cons (dec : DecoderState) (pc v : Nat) (rest : List Nat) :
    tsTrace dec (v :: rest) pc =
      (processByte dec pc v).2.map (fun r => r.ts) ++
        tsTrace (processByte dec pc v).1 rest pc := by
  simp only [tsTrace, detection_and_timing_of_pulses, List.map_append]

/-- Invariant for the amended monotonicity claim: starting from any state
with the flag set, if the payload is well-ordered relative to the offset
floor `lastOff` and the previous timestamp is at most
`wraparound_count*160 + lastOff*5`, the emitted timestamp trace continues
non-decreasingly from the previous timestamp. -/
theorem tsTrace_mono_aux (payload : List Nat) :
    ∀ (dec : DecoderState) (lastOff : Nat) (prevTs : Int) (pc : Nat),
      dec.first_wrap_around = true → lastOff ≤ 31 →
      wellOrdered lastOff payload = true →
      prevTs ≤ dec.number_of_wrap_around * 160 + lastOff * 5 →
      List.Chain' (fun a b => a ≤ b) (prevTs :: tsTrace dec payload pc) := by
  induction payload with
  | nil =>
    intro dec lastOff prevTs pc _ _ _ _
    exact List.chain'_singleton prevTs
  | cons v rest ih =>
    intro dec lastOff prevTs pc hf hle hwo hprev
    have hf1 : ∀ d : DecoderState, d.first_wrap_around = dec.first_wrap_around →
        d.first_wrap_around = true := fun d h => h.trans hf
    unfold wellOrdered at hwo
    rw [tsTrace_cons]
    by_cases hA : 32 ≤ v ∧ v ≤ 63
    · rw [if_pos hA] at hwo
      rw [Bool.and_eq_true] at hwo
      have hoff : lastOff ≤ v - 32 := of_decide_eq_true hwo.1
      rw [processByte_A dec pc v hf hA.1 hA.2]
      simp only [List.map_cons, List.map_nil, List.cons_append, List.nil_append]
      rw [List.chain'_cons]
      constructor
      · omega
      · refine ih _ (v - 32) _ pc (hf1 _ rfl) (by omega) hwo.2 ?_
        show ((v : Int) - 32) * 5 + dec.number_of_wrap_around * 160 ≤
          dec.number_of_wrap_around * 160 + ((v - 32 : Nat) : Int) * 5
        omega
    · rw [if_neg hA] at hwo
      by_cases hB : 64 ≤ v ∧ v ≤ 95
      · rw [if_pos hB] at hwo
        rw [Bool.and_eq_true] at hwo
        have hoff : lastOff ≤ v - 64 := of_decide_eq_true hwo.1
        rw [processByte_B dec pc v hf hB.1 hB.2]
        simp only [List.map_cons, List.map_nil, List.cons_append, List.nil_append]
        rw [List.chain'_cons]
        constructor
        · omega
        · refine ih _ (v - 64) _ pc (hf1 _ rfl) (by omega) hwo.2 ?_
          show ((v : Int) - 64) * 5 + dec.number_of_wrap_around * 160 ≤
            dec.number_of_wrap_around * 160 + ((v - 64 : Nat) : Int) * 5
          omega
      · rw [if_neg hB] at hwo
        by_cases hC : 96 ≤ v ∧ v ≤ 127
        · rw [if_pos hC] at hwo
          rw [Bool.and_eq_true] at hwo
          have hoff : lastOff ≤ v - 96 := of_decide_eq_true hwo.1
          rw [processByte_C dec pc v hf hC.1 hC.2]
          simp only [List.map_cons, List.map_nil, List.cons_append,
            List.nil_append]
          rw [List.chain'_cons, List.chain'_cons, List.chain'_cons]
          refine ⟨by omega, le_refl _, le_refl _, ?_⟩
          refine ih _ (v - 96) _ pc (hf1 _ rfl) (by omega) hwo.2 ?_
          show ((v : Int) - 96) * 5 + dec.number_of_wrap_around * 160 ≤
            dec.number_of_wrap_around * 160 + ((v - 96 : Nat) : Int) * 5
          omega
        · rw [if_neg hC] at hwo
          by_cases h159 : v = 159
          · subst h159
            rw [if_pos rfl] at hwo
            rw [processByte_wrapMarker dec pc hf]
            simp only [List.map_nil, List.nil_append]
            refine ih _ 0 _ pc (hf1 _ rfl) (by omega) hwo ?_
            show prevTs ≤ (dec.number_of_wrap_around + 1) * 160 + (0 : Nat) * 5
            omega
          · rw [if_neg h159] at hwo
            by_cases hAo : 160 ≤ v ∧ v ≤ 191
            · rw [if_pos hAo] at hwo
              rw [Bool.and_eq_true] at hwo
              have hoff : lastOff ≤ v - 160 := of_decide_eq_true hwo.1
              rw [processByte_Aov dec pc v hf hAo.1 hAo.2]
              simp only [List.map_cons, List.map_nil, List.cons_append,
                List.nil_append]
              rw [List.chain'_cons]
              constructor
              · omega
              · refine ih _ 0 _ pc (hf1 _ rfl) (by omega) hwo.2 ?_
                show ((v : Int) - 160) * 5 + dec.number_of_wrap_around * 160 ≤
                  (dec.number_of_wrap_around + 1) * 160 + (0 : Nat) * 5
                omega
            · rw [if_neg hAo] at hwo
              by_cases hBo : 192 ≤ v ∧ v ≤ 223
              · rw [if_pos hBo] at hwo
                rw [Bool.and_eq_true] at hwo
                have hoff : lastOff ≤ v - 192 := of_decide_eq_true hwo.1
                rw [processByte_Bov dec pc v hf hBo.1 hBo.2]
                simp only [List.map_cons, List.map_nil, List.cons_append,
                  List.nil_append]
                rw [List.chain'_cons]
                constructor
                · omega
                · refine ih _ 0 _ pc (hf1 _ rfl) (by omega) hwo.2 ?_
                  show ((v : Int) - 192) * 5 + dec.number_of_wrap_around * 160 ≤
                    (dec.number_of_wrap_around + 1) * 160 + (0 : Nat) * 5
                  omega
              · rw [if_neg hBo] at hwo
                by_cases hCo : 224 ≤ v ∧ v ≤ 255
                · rw [if_pos hCo] at hwo
                  rw [Bool.and_eq_true] at hwo
                  have hoff : lastOff ≤ v - 224 := of_decide_eq_true hwo.1
                  rw [processByte_Cov dec pc v hf hCo.1 hCo.2]
                  simp only [List.map_cons, List.map_nil, List.cons_append,
                    List.nil_append]
                  rw [List.chain'_cons, List.chain'_cons, List.chain'_cons]
                  refine ⟨by omega, le_refl _, le_refl _, ?_⟩
                  refine ih _ 0 _ pc (hf1 _ rfl) (by omega) hwo.2 ?_
                  show ((v : Int) - 224) * 5 + dec.number_of_wrap_around * 160 ≤
                    (dec.number_of_wrap_around + 1) * 160 + (0 : Nat) * 5
                  omega
                · rw [if_neg hCo] at hwo
                  rw [processByte_idle dec pc v hf hA hB hC h159 hAo hBo hCo]
                  simp only [List.map_nil, List.nil_append]
                  exact ih _ lastOff _ pc hf hle hwo hprev

/-- C1: after the first wraparound marker has been seen, a byte in 32..63
increments `apd_a_detection` and emits one channel-A record with
timestamp `(v-32)*5 + wraparound_count*160`; a byte in 96..127 increments
the coincidence, A and B counters and emits a coincidence record plus
mirrored A and B records, all three carrying the identical timestamp
`(v-96)*5 + wraparound_count*160`. -/
theorem c1_nonoverflow_event_records (dec : DecoderState) (pc v : Nat)
    (hf : dec.first_wrap_around = true) :
    (32 ≤ v ∧ v ≤ 63 →
      processByte dec pc v =
        ({ dec with apd_a_detection := dec.apd_a_detection + 1 },
          [⟨Chan.A, pc, dec.apd_a_detection + 1,
            ((v : Int) - 32) * 5 + dec.number_of_wrap_around * 160⟩])) ∧
    (96 ≤ v ∧ v ≤ 127 →
      processByte dec pc v =
        ({ dec with coincidence_detection := dec.coincidence_detection + 1, apd_a_detection := dec.apd_a_detection + 1, apd_b_detection := dec.apd_b_detection + 1 },
          [⟨Chan.C, pc, dec.coincidence_detection + 1,
            ((v : Int) - 96) * 5 + dec.number_of_wrap_around * 160⟩,
           ⟨Chan.A, pc, dec.apd_a_detection + 1,
            ((v : Int) - 96) * 5 + dec.number_of_wrap_around * 160⟩,
           ⟨Chan.B, pc, dec.apd_b_detection + 1,
            ((v : Int) - 96) * 5 + dec.number_of_wrap_around * 160⟩])) := by
  constructor
  · rintro ⟨h1, h2⟩
    unfold processByte
    rw [checkFirstWrap_flagSet dec v hf, if_pos hf,
      if_pos (show v < 128 by omega), if_pos ⟨h1, h2⟩]
    rfl
  · rintro ⟨h1, h2⟩
    unfold processByte
    rw [checkFirstWrap_flagSet dec v hf, if_pos hf,
      if_pos (show v < 128 by omega),
      if_neg (show ¬(32 ≤ v ∧ v ≤ 63) by omega),
      if_neg (show ¬(64 ≤ v ∧ v ≤ 95) by omega), if_pos ⟨h1, h2⟩]
    rfl

/-- Witness for C1: concrete evaluations at v = 40 and v = 100. -/
theorem c1_nonoverflow_event_records_witness :
    ((⟨3, 4, 5, 7, true, none⟩ : DecoderState).first_wrap_around = true ∧
      processByte ⟨3, 4, 5, 7, true, none⟩ 2 40 =
        (⟨4, 4, 5, 7, true, none⟩, [⟨Chan.A, 2, 4, 1160⟩])) ∧
    processByte ⟨3, 4, 5, 7, true, none⟩ 2 100 =
      (⟨4, 5, 6, 7, true, none⟩,
        [⟨Chan.C, 2, 6, 1140⟩, ⟨Chan.A, 2, 4, 1140⟩, ⟨Chan.B, 2, 5, 1140⟩]) := by
  refine ⟨⟨rfl, ?_⟩, ?_⟩
  · have h := (c1_nonoverflow_event_records ⟨3, 4, 5, 7, true, none⟩ 2 40 rfl).1
      (by omega)
    rw [h]
    rfl
  · have h := (c1_nonoverflow_event_records ⟨3, 4, 5, 7, true, none⟩ 2 100 rfl).2
      (by omega)
    rw [h]
    rfl

/-- C2: for an overflow-form event byte processed after the first
wraparound marker (160..191 channel A, 224..255 coincidence), the emitted
timestamp uses the pre-increment `wraparound_count`
(`(v-160)*5 + wraparound_count*160`, resp. `(v-224)*5 + wraparound_count*160`,
the same formula as the non-overflow ranges), and `wraparound_count` is
then incremented by exactly 1. -/
theorem c2_overflow_event_preincrement_timestamp (dec : DecoderState)
    (pc v : Nat) (hf : dec.first_wrap_around = true) :
    (160 ≤ v ∧ v ≤ 191 →
      processByte dec pc v =
        ({ dec with apd_a_detection := dec.apd_a_detection + 1, number_of_wrap_around := dec.number_of_wrap_around + 1 },
          [⟨Chan.A, pc, dec.apd_a_detection + 1,
            ((v : Int) - 160) * 5 + dec.number_of_wrap_around * 160⟩])) ∧
    (224 ≤ v ∧ v ≤ 255 →
      processByte dec pc v =
        ({ dec with coincidence_detection := dec.coincidence_detection + 1, apd_a_detection := dec.apd_a_detection + 1, apd_b_detection := dec.apd_b_detection + 1, number_of_wrap_around := dec.number_of_wrap_around + 1 },
          [⟨Chan.C, pc, dec.coincidence_detection + 1,
            ((v : Int) - 224) * 5 + dec.number_of_wrap_around * 160⟩,
           ⟨Chan.A, pc, dec.apd_a_detection + 1,
            ((v : Int) - 224) * 5 + dec.number_of_wrap_around * 160⟩,
           ⟨Chan.B, pc, dec.apd_b_detection + 1,
            ((v : Int) - 224) * 5 + dec.number_of_wrap_around * 160⟩])) := by
  constructor
  · rintro ⟨h1, h2⟩
    unfold processByte
    rw [checkFirstWrap_flagSet dec v hf, if_pos hf,
      if_neg (show ¬v < 128 by omega), if_neg (show ¬v = 159 by omega),
      if_pos ⟨h1, h2⟩]
    rfl
  · rintro ⟨h1, h2⟩
    unfold processByte
    rw [checkFirstWrap_flagSet dec v hf, if_pos hf,
      if_neg (show ¬v < 128 by omega), if_neg (show ¬v = 159 by omega),
      if_neg (show ¬(160 ≤ v ∧ v ≤ 191) by omega),
      if_neg (show ¬(192 ≤ v ∧ v ≤ 223) by omega), if_pos ⟨h1, h2⟩]
    rfl

/-- Witness for C2: concrete evaluations at v = 165 and v = 230. -/
theorem c2_overflow_event_preincrement_timestamp_witness :
    ((⟨1, 1, 1, 2, true, none⟩ : DecoderState).first_wrap_around = true ∧
      processByte ⟨1, 1, 1, 2, true, none⟩ 9 165 =
        (⟨2, 1, 1, 3, true, none⟩, [⟨Chan.A, 9, 2, 345⟩])) ∧
    processByte ⟨1, 1, 1, 2, true, none⟩ 9 230 =
      (⟨2, 2, 2, 3, true, none⟩,
        [⟨Chan.C, 9, 2, 350⟩, ⟨Chan.A, 9, 2, 350⟩, ⟨Chan.B, 9, 2, 350⟩]) := by
  refine ⟨⟨rfl, ?_⟩, ?_⟩
  · have h := (c2_overflow_event_preincrement_timestamp ⟨1, 1, 1, 2, true, none⟩
      9 165 rfl).1 (by omega)
    rw [h]
    rfl
  · have h := (c2_overflow_event_preincrement_timestamp ⟨1, 1, 1, 2, true, none⟩
      9 230 rfl).2 (by omega)
    rw [h]
    rfl

/-- C4: on the very first wraparound marker (159) of the run, the decoder
sets the seen-first-wraparound flag, assigns `wraparound_count := -1`
(lines 89-91), and the increment in the 159 branch of the same
classification (lines 111-112) then brings it to exactly 0, not 1. -/
theorem c4_first_wraparound_epoch (dec : DecoderState) (pc : Nat)
    (hf : dec.first_wrap_around = false) :
    (checkFirstWrap dec 159).first_wrap_around = true ∧
    (checkFirstWrap dec 159).number_of_wrap_around = -1 ∧
    processByte dec pc 159 =
      ({ dec with first_wrap_around := true, number_of_wrap_around := -1 + 1 }, []) ∧
    (processByte dec pc 159).1.number_of_wrap_around = 0 ∧
    (processByte dec pc 159).1.number_of_wrap_around ≠ 1 := by
  have hcf : checkFirstWrap dec 159 =
      { dec with first_wrap_around := true, number_of_wrap_around := -1 } := by
    unfold checkFirstWrap
    rw [if_pos ⟨rfl, hf⟩]
  have hpb : processByte dec pc 159 =
      ({ dec with first_wrap_around := true, number_of_wrap_around := -1 + 1 }, []) := by
    unfold processByte
    rw [hcf, if_pos rfl, if_neg (show ¬(159 : Nat) < 128 by omega), if_pos rfl]
  refine ⟨by rw [hcf], by rw [hcf], hpb, ?_, ?_⟩
  · rw [hpb]
    show (-1 + 1 : Int) = 0
    norm_num
  · rw [hpb]
    show (-1 + 1 : Int) ≠ 1
    norm_num

/-- Witness for C4: concrete evaluation from the initial decoder state. -/
theorem c4_first_wraparound_epoch_witness :
    (⟨0, 0, 0, 0, false, none⟩ : DecoderState).first_wrap_around = false ∧
    processByte ⟨0, 0, 0, 0, false, none⟩ 1 159 =
      (⟨0, 0, 0, 0, true, none⟩, []) := by
  refine ⟨rfl, ?_⟩
  have h := (c4_first_wraparound_epoch ⟨0, 0, 0, 0, false, none⟩ 1 rfl).2.2.1
  rw [h]
  rfl

/-- C10: while the seen-first-wraparound flag is unset, every payload
byte other than 159 (including all valid event codes) produces no record
and leaves the detection counters and `number_of_wrap_around` unchanged;
hence a whole payload containing no 159 is silently dropped. -/
theorem c10_preflag_samples_dropped (dec : DecoderState) (pc : Nat)
    (payload : List Nat) (hf : dec.first_wrap_around = false)
    (hv : ∀ v ∈ payload, v ≠ 159) :
    detection_and_timing_of_pulses dec payload pc = (dec, []) := by
  induction payload with
  | nil => rfl
  | cons v rest ih =>
    have h1 : processByte dec pc v = (dec, []) :=
      processByte_preflag dec pc v hf (hv v (List.mem_cons_self v rest))
    have h2 : detection_and_timing_of_pulses dec rest pc = (dec, []) :=
      ih fun w hw => hv w (List.mem_cons_of_mem v hw)
    unfold detection_and_timing_of_pulses
    simp only [h1, h2, List.nil_append]

/-- Witness for C10: a payload of event codes before any 159 emits
nothing and changes nothing. -/
theorem c10_preflag_samples_dropped_witness :
    (⟨0, 0, 0, 0, false, none⟩ : DecoderState).first_wrap_around = false ∧
    detection_and_timing_of_pulses ⟨0, 0, 0, 0, false, none⟩ [40, 70, 100, 165, 230, 0] 1 =
      (⟨0, 0, 0, 0, false, none⟩, []) :=
  ⟨rfl, c10_preflag_samples_dropped ⟨0, 0, 0, 0, false, none⟩ 1
    [40, 70, 100, 165, 230, 0] rfl (by decide)⟩

/-- Unfolding the packet loop at the EOF branch: fewer than 90 bytes
remain, so the loop finalizes. -/
theorem packetLoop_eof (bytes : List Nat) (fuel pos : Nat) (ls : LoopState)
    (h : bytes.length < pos + 90) :
    packetLoop bytes (fuel + 1) pos ls = finalize ls := by
  conv_lhs => unfold packetLoop
  rw [if_pos h]

/-- Unfolding the packet loop at the valid-packet branch: the loop
processes the packet and continues after the payload. -/
theorem packetLoop_valid_step (bytes : List Nat) (fuel pos : Nat)
    (ls : LoopState) (hrem : pos + 90 ≤ bytes.length)
    (hlen : packetLengthAt bytes pos = 1052) :
    packetLoop bytes (fuel + 1) pos ls =
      packetLoop bytes fuel
        (pos + 90 + ((bytes.drop (pos + 90)).take 1024).length)
        (stepValidPacket bytes pos ls) := by
  conv_lhs => unfold packetLoop
  rw [if_neg (show ¬bytes.length < pos + 90 by omega), if_pos hlen]

/-- Unfolding the packet loop at the corrupt-packet branch: the loop
dispatches on the result of the resynchronization scan. -/
theorem packetLoop_resync (bytes : List Nat) (fuel pos : Nat)
    (ls : LoopState) (hrem : pos + 90 ≤ bytes.length)
    (hlen : packetLengthAt bytes pos ≠ 1052) :
    packetLoop bytes (fuel + 1) pos ls =
      match scanResync bytes (pos + 90) with
      | some p => packetLoop bytes fuel p ls
      | none => finalize ls := by
  conv_lhs => unfold packetLoop
  rw [if_neg (show ¬bytes.length < pos + 90 by omega), if_neg hlen]

/-- The scan returns `none` once past the end of the stream. -/
theorem scanAux_at_end (bytes : List Nat) (fuel pos : Nat)
    (h : bytes.length ≤ pos) : scanAux bytes fuel pos = none := by
  cases fuel with
  | zero => rfl
  | succ f =>
    unfold scanAux
    rw [if_pos]
    rw [List.drop_eq_nil_of_le h]
    rfl

/-- If the scan succeeds, the marker chunk was found at a 4-aligned
offset from the scan start, and the returned position is 76 bytes before
the post-chunk read position. -/
theorem scanAux_some_marker (bytes : List Nat) :
    ∀ (fuel pos p : Nat), 72 ≤ pos → scanAux bytes fuel pos = some p →
      ∃ k, (bytes.drop (pos + 4 * k)).take 4 = [69, 88, 80, 46] ∧
        p + 76 = pos + 4 * k + 4 := by
  intro fuel
  induction fuel with
  | zero => intro pos p _ h; exact absurd h (by simp [scanAux])
  | succ f ih =>
    intro pos p h72 h
    unfold scanAux at h
    by_cases hc : (bytes.drop pos).take 4 = []
    · rw [if_pos hc] at h; exact absurd h (by simp)
    · rw [if_neg hc] at h
      by_cases hm : (bytes.drop pos).take 4 = [69, 88, 80, 46]
      · rw [if_pos hm] at h
        refine ⟨0, ?_, ?_⟩
        · simpa using hm
        · have hp : p = pos + 4 - 76 := by
            have := h
            simp at this
            omega
          omega
      · rw [if_neg hm] at h
        by_cases hlen : 4 ≤ (bytes.drop pos).length
        · have hl4 : ((bytes.drop pos).take 4).length = 4 := by
            rw [List.length_take]
            omega
          rw [hl4] at h
          obtain ⟨k, hk1, hk2⟩ := ih (pos + 4) p (by omega) h
          refine ⟨k + 1, ?_, by omega⟩
          rw [show pos + 4 * (k + 1) = pos + 4 + 4 * k by omega]
          exact hk1
        · have hlt : pos < bytes.length := by
            by_contra hge
            exact hc (by rw [List.drop_eq_nil_of_le (by omega)]; rfl)
          have hl : ((bytes.drop pos).take 4).length = bytes.length - pos := by
            rw [List.length_take, List.length_drop]
            rw [List.length_drop] at hlen
            omega
          rw [hl] at h
          rw [scanAux_at_end bytes f (pos + (bytes.length - pos)) (by omega)] at h
          exact absurd h (by simp)

/-- If the scan (given enough fuel) returns `none`, there is no marker
chunk at any 4-aligned offset from the scan start: the end of the stream
was reached without finding it. -/
theorem scanAux_none_no_marker (bytes : List Nat) :
    ∀ (fuel pos : Nat), bytes.length - pos < fuel →
      scanAux bytes fuel pos = none →
      ∀ k, (bytes.drop (pos + 4 * k)).take 4 ≠ [69, 88, 80, 46] := by
  intro fuel
  induction fuel with
  | zero => intro pos h; omega
  | succ f ih =>
    intro pos hfuel h k
    unfold scanAux at h
    by_cases hc : (bytes.drop pos).take 4 = []
    · have hnil : bytes.drop pos = [] := by
        rcases List.take_eq_nil_iff.mp hc with h' | h'
        · exact absurd h' (by decide)
        · exact h'
      have hle : bytes.length ≤ pos := List.drop_eq_nil_iff.mp hnil
      rw [List.drop_eq_nil_of_le (show bytes.length ≤ pos + 4 * k by omega)]
      simp
    · rw [if_neg hc] at h
      by_cases hm : (bytes.drop pos).take 4 = [69, 88, 80, 46]
      · rw [if_pos hm] at h; exact absurd h (by simp)
      · rw [if_neg hm] at h
        cases k with
        | zero => simpa using hm
        | succ k' =>
          have hlt : pos < bytes.length := by
            by_contra hge
            exact hc (by rw [List.drop_eq_nil_of_le (by omega)]; rfl)
          by_cases hlen : 4 ≤ (bytes.drop pos).length
          · have hl4 : ((bytes.drop pos).take 4).length = 4 := by
              rw [List.length_take]; omega
            rw [hl4] at h
            have := ih (pos + 4) (by omega) h k'
            rw [show pos + 4 * (k' + 1) = pos + 4 + 4 * k' by omega]
            exact this
          · rw [List.length_drop] at hlen
            rw [List.drop_eq_nil_of_le
              (show bytes.length ≤ pos + 4 * (k' + 1) by omega)]
            simp

/-- C3: for a valid packet whose sequence counter differs from the
previous one by `delta ≠ 1`, the accounting step adds `(delta-1)*1024` to
`wraparound_count`, adds `delta-1` to the file's total-missed counter,
and appends a packet-accounting record carrying `delta` (so for counters
`N` then `N+3`, the record holds 3, the total accumulates 2, and the
wraparound counter gains `2*1024`); and for `delta = 1` nothing changes.
A sequence gap never aborts: the valid-packet branch of the loop always
continues into the payload and the next iteration. -/
theorem c3_sequence_gap_accounting (ls : LoopState) (udp : Nat)
    (prev d : Int) (hlast : ls.dec.last_udp_packet_counter = some prev)
    (hd : (udp : Int) - prev = d) :
    (d ≠ 1 →
      accountPacket ls udp =
        { ls with dec := { ls.dec with number_of_wrap_around := ls.dec.number_of_wrap_around + (d - 1) * 1024, last_udp_packet_counter := some (udp : Int) }, difference := some d, total_missed := ls.total_missed + (d - 1), pktRecs := ls.pktRecs ++ [⟨ls.packet_counter, udp, d⟩] }) ∧
    (d = 1 →
      accountPacket ls udp =
        { ls with dec := { ls.dec with last_udp_packet_counter := some (udp : Int) }, difference := some d, pktRecs := ls.pktRecs ++ [⟨ls.packet_counter, udp, d⟩] }) ∧
    (∀ (bytes : List Nat) (fuel pos : Nat) (ls' : LoopState),
      pos + 90 ≤ bytes.length → packetLengthAt bytes pos = 1052 →
      packetLoop bytes (fuel + 1) pos ls' =
        packetLoop bytes fuel
          (pos + 90 + ((bytes.drop (pos + 90)).take 1024).length)
          (stepValidPacket bytes pos ls')) := by
  refine ⟨?_, ?_, ?_⟩
  · intro hne
    unfold accountPacket
    rw [hlast]
    simp only [hd]
    rw [if_neg hne]
    rfl
  · intro he
    unfold accountPacket
    rw [hlast]
    simp only [hd]
    rw [if_pos he]
    rfl
  · intro bytes fuel pos ls' hrem hlen
    exact packetLoop_valid_step bytes fuel pos ls' hrem hlen

/-- Witness for C3: consecutive sequence counters 5 and 8 record a delta
of 3, accumulate 2 missed packets, and add 2*1024 to the wraparound
counter. -/
theorem c3_sequence_gap_accounting_witness :
    (⟨⟨0, 0, 0, 0, false, some 5⟩, 3, none, 0, [], []⟩ : LoopState).dec.last_udp_packet_counter = some 5 ∧
    accountPacket ⟨⟨0, 0, 0, 0, false, some 5⟩, 3, none, 0, [], []⟩ 8 =
      ⟨⟨0, 0, 0, 2048, false, some 8⟩, 3, some 3, 2, [], [⟨3, 8, 3⟩]⟩ := by
  refine ⟨rfl, ?_⟩
  have h := (c3_sequence_gap_accounting
    ⟨⟨0, 0, 0, 0, false, some 5⟩, 3, none, 0, [], []⟩ 8 5 3 rfl (by decide)).1
    (by decide)
  rw [h]
  rfl

/-- C6: a header declaring a length other than 1052 is not fatal.  The
decoder scans forward 4 bytes at a time for the chunk `0x45 0x58 0x50
0x2E` ("EXP."): on finding it at some 4-aligned offset it rewinds 76
bytes from the current read position and resumes the packet loop there;
if EOF is reached before any aligned chunk matches the marker, decoding
of the file ends early with all previously emitted records retained and
the trailing summary written (`finalize`). -/
theorem c6_resynchronization (bytes : List Nat) (fuel pos : Nat)
    (ls : LoopState) (hrem : pos + 90 ≤ bytes.length)
    (hlen : packetLengthAt bytes pos ≠ 1052) :
    (scanResync bytes (pos + 90) = none →
      packetLoop bytes (fuel + 1) pos ls = finalize ls ∧
      ∀ k, (bytes.drop (pos + 90 + 4 * k)).take 4 ≠ [69, 88, 80, 46]) ∧
    (∀ p, scanResync bytes (pos + 90) = some p →
      packetLoop bytes (fuel + 1) pos ls = packetLoop bytes fuel p ls ∧
      ∃ k, (bytes.drop (pos + 90 + 4 * k)).take 4 = [69, 88, 80, 46] ∧
        p + 76 = pos + 90 + 4 * k + 4) := by
  constructor
  · intro hnone
    constructor
    · rw [packetLoop_resync bytes fuel pos ls hrem hlen, hnone]
    · exact scanAux_none_no_marker bytes (bytes.length + 1) (pos + 90)
        (by omega) hnone
  · intro p hp
    constructor
    · rw [packetLoop_resync bytes fuel pos ls hrem hlen, hp]
    · exact scanAux_some_marker bytes (bytes.length + 1) (pos + 90) p
        (by omega) hp

/-- Witness for C6: a 96-byte stream with an invalid declared length and
no marker terminates through the EOF path with the summary written. -/
theorem c6_resynchronization_witness :
    packetLoop (List.replicate 96 0) 6 0 (initLoopState ⟨0, 0, 0, 0, false, none⟩) =
      finalize (initLoopState ⟨0, 0, 0, 0, false, none⟩) :=
  ((c6_resynchronization (List.replicate 96 0) 5 0
    (initLoopState ⟨0, 0, 0, 0, false, none⟩) (by decide) (by decide)).1
    (by decide)).1

/-- C7: truncated input terminates decoding normally.  If fewer than 90
bytes remain at a header read, the loop ends through the EOF path with the
summary written; if a valid packet's payload read returns fewer than 1024
bytes, the classifier receives exactly the bytes actually available (the
payload's length is the remaining byte count, not 1024) and the loop then
terminates normally. -/
theorem c7_truncated_input (bytes : List Nat) (fuel pos : Nat)
    (ls : LoopState) :
    (bytes.length < pos + 90 →
      packetLoop bytes (fuel + 1) pos ls = finalize ls) ∧
    (pos + 90 ≤ bytes.length → packetLengthAt bytes pos = 1052 →
      bytes.length < pos + 90 + 1024 →
      ((bytes.drop (pos + 90)).take 1024).length = bytes.length - (pos + 90) ∧
      packetLoop bytes (fuel + 2) pos ls = finalize (stepValidPacket bytes pos ls)) := by
  constructor
  · intro h
    exact packetLoop_eof bytes fuel pos ls h
  · intro hrem hlen hshort
    have hpl : ((bytes.drop (pos + 90)).take 1024).length = bytes.length - (pos + 90) := by
      rw [List.length_take, List.length_drop]
      omega
    refine ⟨hpl, ?_⟩
    rw [packetLoop_valid_step bytes (fuel + 1) pos ls hrem hlen, hpl,
      show pos + 90 + (bytes.length - (pos + 90)) = bytes.length by omega]
    exact packetLoop_eof bytes fuel bytes.length (stepValidPacket bytes pos ls)
      (by omega)

/-- Witness for C7: a stream holding one valid header and a 10-byte
truncated payload decodes that payload and terminates normally. -/
theorem c7_truncated_input_witness :
    ((((List.replicate 32 0 ++ [4, 28] ++ List.replicate 52 0 ++ [0, 0, 0, 7] ++ List.replicate 10 40 : List Nat).drop 90).take 1024).length = 10 ∧
      packetLoop (List.replicate 32 0 ++ [4, 28] ++ List.replicate 52 0 ++ [0, 0, 0, 7] ++ List.replicate 10 40) 2 0 (initLoopState ⟨0, 0, 0, 0, false, none⟩) =
        finalize (stepValidPacket (List.replicate 32 0 ++ [4, 28] ++ List.replicate 52 0 ++ [0, 0, 0, 7] ++ List.replicate 10 40) 0 (initLoopState ⟨0, 0, 0, 0, false, none⟩))) ∧
    packetLoop [1, 2, 3] 1 0 (initLoopState ⟨0, 0, 0, 0, false, none⟩) =
      finalize (initLoopState ⟨0, 0, 0, 0, false, none⟩) := by
  constructor
  · have h := (c7_truncated_input
      (List.replicate 32 0 ++ [4, 28] ++ List.replicate 52 0 ++ [0, 0, 0, 7] ++ List.replicate 10 40)
      0 0 (initLoopState ⟨0, 0, 0, 0, false, none⟩)).2
      (by decide) (by decide) (by decide)
    exact ⟨by rw [show (90 : Nat) = 0 + 90 from rfl, h.1]; decide, h.2⟩
  · exact (c7_truncated_input [1, 2, 3] 0 0
      (initLoopState ⟨0, 0, 0, 0, false, none⟩)).1 (by decide)

/-- C5 (counterexample): the claim as stated fails — a payload whose
event offsets regress within one wraparound cycle (here 63 then 32, both
after the first 159 marker of the run) yields the strictly decreasing
timestamp trace 155, 0. -/
theorem c5_counterexample :
    tsTrace ⟨0, 0, 0, 0, false, none⟩ [159, 63, 32] 1 = [155, 0] ∧
    ¬ List.Chain' (fun a b => a ≤ b)
      (tsTrace ⟨0, 0, 0, 0, false, none⟩ [159, 63, 32] 1) := by
  have h : tsTrace ⟨0, 0, 0, 0, false, none⟩ [159, 63, 32] 1 = [155, 0] := by
    decide
  refine ⟨h, ?_⟩
  rw [h]
  intro hch
  have h2 := (List.chain'_cons.mp hch).1
  omega

/-- C5 (amended): for a payload processed after the first wraparound
marker has been seen, the sequence of emitted timestamps is non-decreasing
provided the payload is well-ordered: successive event samples carry
non-decreasing offsets within their classification ranges, the floor
resetting whenever the wraparound counter advances (a 159 marker or an
overflow-form event).  Records in later wraparound cycles always carry
larger timestamps; only an offset regression inside one cycle can violate
monotonicity. -/
theorem c5_payload_timestamps_monotone (dec : DecoderState) (pc : Nat)
    (payload : List Nat) (hf : dec.first_wrap_around = true)
    (hw : wellOrdered 0 payload = true) :
    List.Chain' (fun a b => a ≤ b) (tsTrace dec payload pc) := by
  have h := tsTrace_mono_aux payload dec 0 (dec.number_of_wrap_around * 160)
    pc hf (by omega) hw (by omega)
  exact (List.chain'_cons'.mp h).2

/-- Witness for the amended C5: a well-ordered payload crossing two
wraparound advances produces a non-decreasing trace. -/
theorem c5_payload_timestamps_monotone_witness :
    ((⟨0, 0, 0, 0, true, none⟩ : DecoderState).first_wrap_around = true ∧
      wellOrdered 0 [32, 40, 63, 159, 100, 230, 5, 40] = true) ∧
    List.Chain' (fun a b => a ≤ b)
      (tsTrace ⟨0, 0, 0, 0, true, none⟩ [32, 40, 63, 159, 100, 230, 5, 40] 1) :=
  ⟨⟨rfl, by decide⟩,
    c5_payload_timestamps_monotone ⟨0, 0, 0, 0, true, none⟩ 1
      [32, 40, 63, 159, 100, 230, 5, 40] rfl (by decide)⟩

end PhotonArrival

namespace Analyze

/-- Filtering out the empty per-file lists leaves nothing exactly when
the concatenation of all inputs is empty. -/
theorem filter_nonempty_eq_nil_iff (streams : List (List ℚ)) :
    streams.filter (fun l => !l.isEmpty) = [] ↔ streams.flatten = [] := by
  induction streams with
  | nil => simp
  | cons l rest ih =>
    by_cases hl : l.isEmpty
    · have hnil : l = [] := List.isEmpty_iff.mp hl
      simp [List.filter_cons, hl, hnil, ih]
    · have hlne : l ≠ [] := by simpa [List.isEmpty_iff] using hl
      simp [List.filter_cons, hl, hlne]

/-- C9: the aggregator fails with the designated empty-input error
exactly when no timestamps exist across all supplied input streams; when
at least one timestamp exists, no error is raised and aggregation
produces a result. -/
theorem c9_empty_input_error (streams : List (List ℚ)) (w : ℚ) (rate : Bool) :
    (aggregate streams w rate = Except.error AggError.emptyInputError ↔
      streams.flatten = []) ∧
    (streams.flatten ≠ [] → (aggregate streams w rate).isOk = true) := by
  have hiff : ((streams.filter (fun l => !l.isEmpty)).isEmpty = true) ↔
      streams.flatten = [] := by
    rw [List.isEmpty_iff]
    exact filter_nonempty_eq_nil_iff streams
  constructor
  · by_cases hc : (streams.filter (fun l => !l.isEmpty)).isEmpty = true
    · simp only [aggregate]
      rw [if_pos hc]
      simp [hiff.mp hc]
    · simp only [aggregate]
      rw [if_neg hc]
      constructor
      · intro h
        exact absurd h (by simp)
      · intro h
        exact absurd (hiff.mpr h) hc
  · intro hne
    simp only [aggregate]
    rw [if_neg (fun hc => hne (hiff.mp hc))]
    rfl

/-- Witness for C9: empty inputs raise the empty-input error; a single
timestamp aggregates without error. -/
theorem c9_empty_input_error_witness :
    aggregate [[], []] 1 false = Except.error AggError.emptyInputError ∧
    (([[(5 : ℚ)], []] : List (List ℚ)).flatten ≠ [] ∧
      (aggregate [[(5 : ℚ)], []] 1 false).isOk = true) := by
  refine ⟨(c9_empty_input_error [[], []] 1 false).1.mpr rfl, by decide, ?_⟩
  exact (c9_empty_input_error [[(5 : ℚ)], []] 1 false).2 (by decide)

/-- The `i`-th edge produced by `np.arange` is `start + i * step`. -/
theorem npArange_getD (start stop step : ℚ) (i : Nat)
    (hi : i < (npArange start stop step).length) :
    (npArange start stop step).getD i 0 = start + i * step := by
  unfold npArange at hi ⊢
  rw [List.length_map, List.length_range] at hi
  rw [List.getD_eq_getElem?_getD, List.getElem?_map, List.getElem?_range hi]
  rfl

/-- The `i`-th histogram count is the number of data points in
`[edge_i, edge_{i+1})`, closed on the right for the final bin. -/
theorem histogramCounts_getD (data edges : List ℚ) (i : Nat)
    (hi : i + 1 < edges.length) :
    (histogramCounts data edges).getD i 0 =
      if i + 2 = edges.length then
        data.countP (fun x => decide (edges.getD i 0 ≤ x ∧ x ≤ edges.getD (i + 1) 0))
      else
        data.countP (fun x => decide (edges.getD i 0 ≤ x ∧ x < edges.getD (i + 1) 0)) := by
  unfold histogramCounts
  rw [List.getD_eq_getElem?_getD, List.getElem?_map,
    List.getElem?_range (show i < edges.length - 1 by omega)]
  rfl

/-- The `i`-th bin center is the midpoint of the `i`-th and `(i+1)`-th
edges. -/
theorem binCenters_getD (edges : List ℚ) (i : Nat)
    (hi : i + 1 < edges.length) :
    (binCenters edges).getD i 0 = (edges.getD i 0 + edges.getD (i + 1) 0) / 2 := by
  have hi0 : i < edges.length := by omega
  simp only [binCenters, List.getD_eq_getElem?_getD]
  rw [List.getElem?_zipWith, ← List.drop_one, List.getElem?_drop,
    show 1 + i = i + 1 by omega,
    List.getElem?_eq_getElem hi0, List.getElem?_eq_getElem hi]
  rfl

/-- The `i`-th reported value is the raw count, or the count divided by
the bin width in rate mode. -/
theorem binValues_getD (counts : List Nat) (w : ℚ) (rate : Bool) (i : Nat)
    (hi : i < counts.length) :
    (binValues counts w rate).getD i 0 =
      if rate then ((counts.getD i 0 : ℚ)) / w else (counts.getD i 0 : ℚ) := by
  unfold binValues
  cases rate
  · simp only [Bool.false_eq_true, if_false]
    rw [List.getD_eq_getElem?_getD, List.getElem?_map, List.getElem?_eq_getElem hi,
      List.getD_eq_getElem?_getD, List.getElem?_eq_getElem hi]
    rfl
  · simp only [if_true]
    rw [List.getD_eq_getElem?_getD, List.getElem?_map, List.getElem?_eq_getElem hi,
      List.getD_eq_getElem?_getD, List.getElem?_eq_getElem hi]
    rfl

/-- C8 (amended): for a nonempty sorted timestamp list and positive bin
width, the edges run from the minimum to the maximum plus one bin width
in steps of the bin width (`edge_i = min + i*w`); every bin except the
last counts the timestamps in the half-open window
`[min + i*w, min + (i+1)*w)` while the final bin is closed on the right
(numpy histogram semantics); the reported value is the raw count or
`count / bin_width` in rate mode; and each bin center is the midpoint of
its two edges. -/
theorem c8_binning (data : List ℚ) (w : ℚ) (rate : Bool)
    (hne : data ≠ []) (hsorted : List.Sorted (fun a b => a ≤ b) data)
    (hw : 0 < w) :
    (∀ i, i < (npArange (listMin data) (listMax data + w) w).length →
      (npArange (listMin data) (listMax data + w) w).getD i 0 =
        listMin data + i * w) ∧
    (∀ i, i + 2 < (npArange (listMin data) (listMax data + w) w).length →
      (histogramCounts data (npArange (listMin data) (listMax data + w) w)).getD i 0 =
        data.countP (fun x => decide (listMin data + i * w ≤ x ∧
          x < listMin data + ((i : ℚ) + 1) * w))) ∧
    (∀ i, i + 2 = (npArange (listMin data) (listMax data + w) w).length →
      (histogramCounts data (npArange (listMin data) (listMax data + w) w)).getD i 0 =
        data.countP (fun x => decide (listMin data + i * w ≤ x ∧
          x ≤ listMin data + ((i : ℚ) + 1) * w))) ∧
    (∀ i, i + 1 < (npArange (listMin data) (listMax data + w) w).length →
      (binCenters (npArange (listMin data) (listMax data + w) w)).getD i 0 =
        (listMin data + i * w + (listMin data + ((i : ℚ) + 1) * w)) / 2) ∧
    (∀ i, i < (histogramCounts data (npArange (listMin data) (listMax data + w) w)).length →
      (binValues (histogramCounts data (npArange (listMin data) (listMax data + w) w)) w rate).getD i 0 =
        if rate then
          (((histogramCounts data (npArange (listMin data) (listMax data + w) w)).getD i 0 : ℚ)) / w
        else
          (((histogramCounts data (npArange (listMin data) (listMax data + w) w)).getD i 0 : ℚ))) := by
  refine ⟨?_, ?_, ?_, ?_, ?_⟩
  · intro i hi
    exact npArange_getD _ _ _ i hi
  · intro i hi
    rw [histogramCounts_getD data _ i (by omega), if_neg (by omega),
      npArange_getD _ _ _ i (by omega), npArange_getD _ _ _ (i + 1) (by omega)]
    push_cast
    rfl
  · intro i hi
    rw [histogramCounts_getD data _ i (by omega), if_pos hi,
      npArange_getD _ _ _ i (by omega), npArange_getD _ _ _ (i + 1) (by omega)]
    push_cast
    rfl
  · intro i hi
    rw [binCenters_getD _ i hi, npArange_getD _ _ _ i (by omega),
      npArange_getD _ _ _ (i + 1) (by omega)]
    push_cast
    rfl
  · intro i hi
    exact binValues_getD _ w rate i hi

/-- Witness for the amended C8: applied to the timestamps 0 and 3 with
bin width 1 in count mode. -/
theorem c8_binning_witness :
    (([(0 : ℚ), 3] : List ℚ) ≠ [] ∧
      List.Sorted (fun a b => a ≤ b) [(0 : ℚ), 3] ∧ (0 : ℚ) < 1) ∧
    (∀ i, i < (npArange (listMin [(0 : ℚ), 3]) (listMax [(0 : ℚ), 3] + 1) 1).length →
      (npArange (listMin [(0 : ℚ), 3]) (listMax [(0 : ℚ), 3] + 1) 1).getD i 0 =
        listMin [(0 : ℚ), 3] + i * 1) :=
  ⟨⟨by decide, by decide, by decide⟩,
    (c8_binning [(0 : ℚ), 3] 1 false (by decide) (by decide) (by decide)).1⟩

/-- C8 (counterexample): the claim's uniformly half-open reading fails at
the last bin.  For timestamps 0 and 1 with bin width 1 the edges are
`[0, 1]`, forming a single (final) bin whose count is 2, while the
half-open window `[0, 1)` contains only one timestamp. -/
theorem c8_counterexample :
    npArange (listMin [(0 : ℚ), 1]) (listMax [(0 : ℚ), 1] + 1) 1 = [0, 1] ∧
    histogramCounts [(0 : ℚ), 1]
      (npArange (listMin [(0 : ℚ), 1]) (listMax [(0 : ℚ), 1] + 1) 1) = [2] ∧
    List.countP (fun x => decide ((0 : ℚ) ≤ x ∧ x < 1)) [(0 : ℚ), 1] = 1 ∧
    (histogramCounts [(0 : ℚ), 1]
      (npArange (listMin [(0 : ℚ), 1]) (listMax [(0 : ℚ), 1] + 1) 1)).getD 0 0 ≠
      List.countP (fun x => decide ((0 : ℚ) ≤ x ∧ x < 1)) [(0 : ℚ), 1] := by
  have hmin : listMin [(0 : ℚ), 1] = 0 := by norm_num [listMin]
  have hmax : listMax [(0 : ℚ), 1] = 1 := by norm_num [listMax]
  have he : npArange (listMin [(0 : ℚ), 1]) (listMax [(0 : ℚ), 1] + 1) 1 = [0, 1] := by
    rw [hmin, hmax]
    unfold npArange
    rw [show ⌈((1 : ℚ) + 1 - 0) / 1⌉ = 2 by norm_num]
    simp [List.range_succ]
  have hh : histogramCounts [(0 : ℚ), 1]
      (npArange (listMin [(0 : ℚ), 1]) (listMax [(0 : ℚ), 1] + 1) 1) = [2] := by
    rw [he]
    norm_num [histogramCounts, List.range_succ, List.countP_cons]
  have hc : List.countP (fun x => decide ((0 : ℚ) ≤ x ∧ x < 1)) [(0 : ℚ), 1] = 1 := by
    norm_num [List.countP_cons]
  refine ⟨he, hh, hc, ?_⟩
  rw [hh, hc]
  decide

end Analyze
